import Mathlib

/-!
Verification of the bms-payment-backend payment-job orchestration core.

This file shallowly embeds the parts of the TypeScript source that the
claims C1-C10 are about:

* `usdToAtomic` and the USD → atomic-unit conversion
  (src/x402/types, function `usdToAtomic`), together with an exact
  rational model of IEEE-754 double-precision rounding, since the source
  computes `Math.floor(usdAmount * 1_000_000)` on JavaScript numbers
  (binary64 floats);
* the sequential promise-chain job queue
  (src/fiat/services/job-queue.service.ts, `JobQueueService.enqueue`),
  as a deterministic microtask machine;
* `X402FacilitatorService.verify` and `X402FacilitatorService.settle`
  (src/x402/services/x402-facilitator.service.ts), with the external
  blockchain/crypto calls as oracle parameters that may either return a
  value or raise an error;
* the fiat orchestration flow (fiat-automation.service.ts, fiat.service.ts,
  fiat.controller.ts) and the hybrid payment coordinator.

Definitions are translated from the source; the few pieces of the
repository whose implementation files are not present (they are only
described by the spec and called from present files) are modelled from
the spec and marked `Modelled from the spec:` in their doc comments.

Rational arithmetic in the executable definitions is written with
`mkRat` and integer arithmetic on numerators/denominators (rather than
the `Field ℚ` operations) so that every definition evaluates by kernel
reduction on concrete inputs; bridge lemmas relate these operations to
the ordinary ℚ operations used in theorem statements.
-/

namespace BmsPayment

/-! ### Exact model of IEEE-754 binary64 ("double") rounding

JavaScript numbers are binary64 floats.  We model a double by its exact
rational value and model the rounding performed by a float operation by
`fl64 : ℚ → ℚ`, round to nearest with ties to even at 53 significant
bits.  Overflow and subnormal thresholds are irrelevant for the monetary
magnitudes in the claims, so they are not modelled. -/

/-- Multiplication of a rational by an integer power of two,
implemented on the numerator/denominator so it evaluates by kernel
reduction. -/
def qmulPow2 (q : ℚ) (k : ℤ) : ℚ :=
  if 0 ≤ k then mkRat (q.num * 2 ^ k.toNat) q.den
  else mkRat q.num (q.den * 2 ^ (-k).toNat)

/-- Multiplication of a rational by a natural number, implemented on the
numerator so it evaluates by kernel reduction. -/
def qmulNat (q : ℚ) (n : ℕ) : ℚ :=
  mkRat (q.num * n) q.den

/-- Bridge lemma: `qmulNat` is ordinary rational multiplication. -/
theorem qmulNat_eq (q : ℚ) (n : ℕ) : qmulNat q n = q * (n : ℚ) := by
  rw [qmulNat, Rat.mkRat_eq_div]
  push_cast
  calc (q.num : ℚ) * (n : ℚ) / (q.den : ℚ)
      = ((q.num : ℚ) / (q.den : ℚ)) * (n : ℚ) := by ring
    _ = q * (n : ℚ) := by rw [Rat.num_div_den]

/-- Floor of log base 2 for a rational `1 ≤ q`, by structural fuel
recursion (fuel-based so that the kernel can evaluate it on concrete
inputs). -/
def ilog2Up (fuel : Nat) (q : ℚ) : ℤ :=
  match fuel with
  | 0 => 0
  | fuel + 1 => if q < 2 then 0 else ilog2Up fuel (mkRat q.num (q.den * 2)) + 1

/-- Floor of log base 2 for a rational `0 < q < 1`. -/
def ilog2Down (fuel : Nat) (q : ℚ) : ℤ :=
  match fuel with
  | 0 => 0
  | fuel + 1 => if 1 ≤ q then 0 else ilog2Down fuel (mkRat (q.num * 2) q.den) - 1

/-- Floor of log base 2 of a positive rational.  Fuel 1200 covers the
entire binary64 exponent range (|exponent| < 1075). -/
def ilog2 (q : ℚ) : ℤ :=
  if 1 ≤ q then ilog2Up 1200 q else ilog2Down 1200 q

/-- Round a rational to the nearest integer, ties to even (the IEEE-754
default rounding used by JavaScript arithmetic).  The fractional part
`m - ⌊m⌋` is compared with 1/2 through the integer quantity
`r = m.num - ⌊m⌋ * m.den`, so that the comparison evaluates by kernel
reduction. -/
def roundNearestEven (m : ℚ) : ℤ :=
  let n := ⌊m⌋
  let r := m.num - n * (m.den : ℤ)
  if 2 * r < (m.den : ℤ) then n
  else if (m.den : ℤ) < 2 * r then n + 1
  else if n % 2 = 0 then n else n + 1

/-- Round a positive rational to the nearest binary64 value: scale into
`[2^52, 2^53)`, round to an integer significand (ties to even), and
scale back. -/
def fl64pos (q : ℚ) : ℚ :=
  let e := ilog2 q
  let sig := roundNearestEven (qmulPow2 q (52 - e))
  qmulPow2 (mkRat sig 1) (e - 52)

/-- Rounding of an exact rational to the nearest binary64 value. -/
def fl64 (q : ℚ) : ℚ :=
  if q = 0 then 0 else if q < 0 then -fl64pos (-q) else fl64pos q

/-! ### USD to atomic-unit conversion (source: `usdToAtomic`)

Source (x402 types):
`BigInt(Math.floor(usdAmount * 1_000_000)).toString()`.
The argument `usdAmount` is a double; `usdAmount * 1_000_000` is a
binary64 multiplication (modelled by `fl64` of the exact product),
`Math.floor` is the exact floor of the resulting double, and
`BigInt(...).toString()` renders that integer in decimal. -/

/-- Atomic amount as an integer: `Math.floor(usdAmount * 1_000_000)`
where the multiplication is binary64 multiplication.  `usd` is the exact
rational value of the `usdAmount` double. -/
def usdToAtomicInt (usd : ℚ) : ℤ :=
  ⌊fl64 (qmulNat usd 1000000)⌋

/-- Source function `usdToAtomic`: the atomic amount rendered as a
decimal string via `BigInt(...).toString()`. -/
def usdToAtomic (usd : ℚ) : String :=
  toString (usdToAtomicInt usd)

/-- The fields of a created payment job that claim C1 is about.
Modelled from the spec: the file x402-payment.service.ts
(`X402PaymentService.createPaymentJob`) is not part of the provided
sources; spec §4.2 states that job creation "converts amount to atomic
units (fixed 6-decimal scaling, floor rounding)" using the conversion
above and "builds payment requirements (..., max-amount-required =
atomic amount, ...)". -/
structure CreatedJobModel where
  amountAtomic : String
  maxAmountRequired : String

/-- Modelled from the spec: `createPaymentJob` sets `amountAtomic` to the
converted amount and copies the same value into the
`maxAmountRequired` field of the returned payment requirements. -/
def createPaymentJob (amountUsd : ℚ) : CreatedJobModel :=
  { amountAtomic := usdToAtomic amountUsd
    maxAmountRequired := usdToAtomic amountUsd }

/-- The exact rational value of the binary64 double nearest to the
decimal 0.6, i.e. the value of `amountUsd` received for a JSON request
carrying `"amountUsd": 0.6`. -/
def usdSixTenths : ℚ := fl64 (mkRat 3 5)

/-- Bridge lemma specialised to the scaling constant of the conversion:
the atomic conversion applies `fl64` to the true product
`amountUsd * 10^6`. -/
theorem qmulNat_million (q : ℚ) : qmulNat q 1000000 = q * (1000000 : ℚ) := by
  have h := qmulNat_eq q 1000000
  norm_num at h
  exact h

/-- C1, counterexample.  For the creation request with `amountUsd` the
binary64 double nearest to 0.6 (value 5404319552844595/2^53), the code
returns `amountAtomic = "600000"`, while `floor(amountUsd * 10^6)` is
599999: the binary64 multiplication `0.6 * 1_000_000` rounds up across
the integer boundary, so the returned amount is strictly greater than
`floor(amountUsd * 10^6)`, contradicting both the stated equality and
the statement that the conversion never rounds up. -/
theorem C1_counterexample :
    (createPaymentJob usdSixTenths).amountAtomic = "600000" ∧
    ⌊usdSixTenths * (1000000 : ℚ)⌋ = 599999 := by
  constructor
  · decide
  · rw [← qmulNat_million]
    decide

/-- C1, amended.  For every valid creation request, the returned
`amountAtomic` equals `floor(fl64(amountUsd * 10^6))` — the floor of the
IEEE-754 double-precision product — rendered as a decimal string, and
`maxAmountRequired` equals that same value; `Math.floor` truncates the
double product toward zero (the result never exceeds the double
product), but the preceding binary64 multiplication rounds to nearest
and may round up past an integer, so the result can exceed
`floor(amountUsd * 10^6)` itself. -/
theorem C1_amended (x : ℚ) :
    (createPaymentJob x).amountAtomic = toString ⌊fl64 (x * (1000000 : ℚ))⌋ ∧
    (createPaymentJob x).maxAmountRequired = (createPaymentJob x).amountAtomic ∧
    ((⌊fl64 (x * (1000000 : ℚ))⌋ : ℚ) ≤ fl64 (x * (1000000 : ℚ))) := by
  refine ⟨?_, rfl, Int.floor_le _⟩
  simp [createPaymentJob, usdToAtomic, usdToAtomicInt, qmulNat_million]

/-! ### Sequential job queue (source: `JobQueueService`)

Source:
```
private tail: Promise<void> = Promise.resolve();
enqueue<T>(task: () => Promise<T>): Promise<T> {
  const run = this.tail.then(() => task());
  this.tail = run.then(() => undefined, () => undefined);
  return run;
}
```
The queue is a tail-chained promise continuation.  We model a task by
the behaviour of the promise returned by `task()`: it suspends for
`steps` further microtask turns and then settles with `result`.  The
chain built by successive `enqueue` calls is executed by a
single-threaded event loop processing one microtask at a time (the
JavaScript scheduling model): the `then` callback registered on the
current tail invokes the next task function only when that tail promise
has settled, and the `run.then(() => undefined, () => undefined)` step
settles the new tail regardless of whether `run` fulfilled or rejected. -/

/-- A task submitted to `JobQueueService.enqueue`: once its function is
invoked it suspends for `steps` microtask turns and then settles with
`result` (`Except.ok` = the promise returned by the task resolves,
`Except.error` = it rejects). -/
structure QTask (ε α : Type) where
  steps : Nat
  result : Except ε α

/-- Observable events of a queue execution: `started i` = the i-th
enqueued task function is invoked by the `then` callback on the previous
tail; `settled i` = the promise returned by the i-th task settles. -/
inductive QEvent where
  | started (i : Nat)
  | settled (i : Nat)
deriving DecidableEq, Repr

/-- State of a `JobQueueService` instance as built by `enqueue` calls:
the tasks chained behind the initial resolved tail, in enqueue order. -/
structure JobQueue (ε α : Type) where
  chained : List (QTask ε α)

/-- Source method `enqueue`: appends the new task after the current
tail of the continuation chain. -/
def JobQueue.enqueue {ε α} (q : JobQueue ε α) (t : QTask ε α) : JobQueue ε α :=
  ⟨q.chained ++ [t]⟩

/-- Queue obtained by enqueuing the tasks of `ts` in order on a fresh
instance (`tail = Promise.resolve()`), without awaiting in between. -/
def queueOf {ε α} (ts : List (QTask ε α)) : JobQueue ε α :=
  ts.foldl JobQueue.enqueue ⟨[]⟩

/-- One pending microtask of the event loop.  `startTask i t rest` is
the reaction of the settled previous tail that invokes task `i`
(`() => task()`); `bodyStep` is a suspension point inside the running
task body; `tailSettled i rest` is the `run.then(() => undefined,
() => undefined)` reaction that settles the new tail after task `i`
settled (with either outcome) and thereby releases task `i+1`. -/
inductive MJob (ε α : Type) where
  | startTask (i : Nat) (t : QTask ε α) (rest : List (QTask ε α))
  | bodyStep (i : Nat) (t : QTask ε α) (rest : List (QTask ε α)) (remaining : Nat)
  | tailSettled (i : Nat) (rest : List (QTask ε α))

/-- Event-loop state: FIFO microtask queue, the trace of task events,
and the settlements delivered to the promises returned by `enqueue`
(the caller-visible handles), in settlement order. -/
structure MState (ε α : Type) where
  jobs : List (MJob ε α)
  trace : List QEvent
  handles : List (Nat × Except ε α)

/-- One turn of the single-threaded event loop: process the first
pending microtask. -/
def mstep {ε α} (s : MState ε α) : MState ε α :=
  match s.jobs with
  | [] => s
  | MJob.startTask i t rest :: js =>
      { s with jobs := js ++ [MJob.bodyStep i t rest t.steps],
               trace := s.trace ++ [QEvent.started i] }
  | MJob.bodyStep i t rest (r + 1) :: js =>
      { s with jobs := js ++ [MJob.bodyStep i t rest r] }
  | MJob.bodyStep i t rest 0 :: js =>
      { s with jobs := js ++ [MJob.tailSettled i rest],
               trace := s.trace ++ [QEvent.settled i],
               handles := s.handles ++ [(i, t.result)] }
  | MJob.tailSettled _ [] :: js => { s with jobs := js }
  | MJob.tailSettled i (t2 :: rest2) :: js =>
      { s with jobs := js ++ [MJob.startTask (i + 1) t2 rest2] }

/-- Iterate the event loop a given number of turns. -/
def mstepN {ε α} (n : Nat) (s : MState ε α) : MState ε α :=
  match n with
  | 0 => s
  | n + 1 => mstepN n (mstep s)

/-- Exact number of microtask turns consumed by a chain of tasks:
each task takes one turn to start, `steps + 1` body turns to settle,
and one turn for its tail reaction. -/
def fuelChain {ε α} (ts : List (QTask ε α)) : Nat :=
  match ts with
  | [] => 0
  | t :: rest => t.steps + 3 + fuelChain rest

/-- Pending microtasks for a chain whose next runnable task is number
`i`: the reaction invoking task `i` is scheduled as soon as the
predecessor tail settles, and nothing is scheduled for an empty chain. -/
def initJobs {ε α} (i : Nat) (ts : List (QTask ε α)) : List (MJob ε α) :=
  match ts with
  | [] => []
  | t :: rest => [MJob.startTask i t rest]

/-- Initial event-loop state after the synchronous `enqueue` calls: the
initial tail is already resolved, so the reaction invoking task 0 is
already scheduled; every later task waits on its predecessor's tail. -/
def initState {ε α} (q : JobQueue ε α) : MState ε α :=
  { jobs := initJobs 0 q.chained, trace := [], handles := [] }

/-- Full execution of a queue: run the event loop until the chain is
drained. -/
def execQueue {ε α} (q : JobQueue ε α) : MState ε α :=
  mstepN (fuelChain q.chained) (initState q)

/-- Reference trace of a strictly sequential execution of tasks
numbered from `i`. -/
def chainTrace {ε α} (i : Nat) (ts : List (QTask ε α)) : List QEvent :=
  match ts with
  | [] => []
  | _ :: rest => QEvent.started i :: QEvent.settled i :: chainTrace (i + 1) rest

/-- Reference handle settlements of a strictly sequential execution:
each handle receives its own task result. -/
def chainHandles {ε α} (i : Nat) (ts : List (QTask ε α)) :
    List (Nat × Except ε α) :=
  match ts with
  | [] => []
  | t :: rest => (i, t.result) :: chainHandles (i + 1) rest

theorem queueOf_chained {ε α} (ts : List (QTask ε α)) :
    (queueOf ts).chained = ts := by
  suffices h : ∀ (acc : List (QTask ε α)),
      (ts.foldl JobQueue.enqueue ⟨acc⟩).chained = acc ++ ts by
    simpa using h []
  induction ts with
  | nil => intro acc; simp [queueOf]
  | cons t rest ih =>
      intro acc
      simp [queueOf, JobQueue.enqueue, ih (acc ++ [t])]

theorem mstepN_add {ε α} (m n : Nat) (s : MState ε α) :
    mstepN (m + n) s = mstepN n (mstepN m s) := by
  induction m generalizing s with
  | zero => simp [mstepN]
  | succ m ih =>
      have : m + 1 + n = m + n + 1 := by omega
      rw [this]
      simp only [mstepN]
      exact ih (mstep s)

theorem run_body {ε α} (i : Nat) (t : QTask ε α) (rest : List (QTask ε α))
    (r : Nat) (tr : List QEvent) (hs : List (Nat × Except ε α)) :
    mstepN (r + 1) ⟨[MJob.bodyStep i t rest r], tr, hs⟩ =
      ⟨[MJob.tailSettled i rest], tr ++ [QEvent.settled i],
        hs ++ [(i, t.result)]⟩ := by
  induction r with
  | zero => simp [mstepN, mstep]
  | succ r ih => simpa [mstepN, mstep] using ih

theorem run_chain {ε α} (ts : List (QTask ε α)) :
    ∀ (i : Nat) (tr : List QEvent) (hs : List (Nat × Except ε α)),
    mstepN (fuelChain ts) ⟨initJobs i ts, tr, hs⟩ =
      ⟨[], tr ++ chainTrace i ts, hs ++ chainHandles i ts⟩ := by
  induction ts with
  | nil =>
      intro i tr hs
      simp [fuelChain, initJobs, mstepN, chainTrace, chainHandles]
  | cons t rest ih =>
      intro i tr hs
      have hfuel : fuelChain (t :: rest) =
          1 + (t.steps + 1) + (1 + fuelChain rest) := by
        simp [fuelChain]; omega
      rw [hfuel, mstepN_add]
      have hA : mstepN (1 + (t.steps + 1))
          (⟨initJobs i (t :: rest), tr, hs⟩ : MState ε α) =
          ⟨[MJob.tailSettled i rest],
            tr ++ [QEvent.started i, QEvent.settled i],
            hs ++ [(i, t.result)]⟩ := by
        rw [mstepN_add]
        have h1 : mstepN 1 (⟨initJobs i (t :: rest), tr, hs⟩ : MState ε α) =
            ⟨[MJob.bodyStep i t rest t.steps],
              tr ++ [QEvent.started i], hs⟩ := by
          simp [initJobs, mstepN, mstep]
        rw [h1, run_body]
        simp
      rw [hA, mstepN_add]
      have h3 : mstepN 1
          (⟨[MJob.tailSettled i rest],
            tr ++ [QEvent.started i, QEvent.settled i],
            hs ++ [(i, t.result)]⟩ : MState ε α) =
          ⟨initJobs (i + 1) rest,
            tr ++ [QEvent.started i, QEvent.settled i],
            hs ++ [(i, t.result)]⟩ := by
        cases rest with
        | nil => simp [initJobs, mstepN, mstep]
        | cons t2 rest2 => simp [initJobs, mstepN, mstep]
      rw [h3, ih]
      simp [chainTrace, chainHandles]

/-- Full-execution closed form: a queue with tasks `ts` produces the
strictly sequential trace and delivers each task its own result. -/
theorem execQueue_eq {ε α} (ts : List (QTask ε α)) :
    execQueue (queueOf ts) =
      ⟨[], chainTrace 0 ts, chainHandles 0 ts⟩ := by
  have h := run_chain (ε := ε) (α := α) ts 0 [] []
  simpa [execQueue, initState, queueOf_chained] using h

theorem chainTrace_take {ε α} (ts : List (QTask ε α)) :
    ∀ (i k : Nat), (chainTrace i ts).take (2 * k) = chainTrace i (ts.take k) := by
  induction ts with
  | nil => intro i k; simp [chainTrace]
  | cons t rest ih =>
      intro i k
      cases k with
      | zero => simp [chainTrace]
      | succ k =>
          have h2 : 2 * (k + 1) = 2 * k + 1 + 1 := by omega
          rw [h2]
          simp [chainTrace, List.take_succ_cons, ih (i + 1) k]

theorem settled_mem_chainTrace {ε α} (ts : List (QTask ε α)) :
    ∀ (a j : Nat), a ≤ j → j < a + ts.length →
      QEvent.settled j ∈ chainTrace a ts := by
  induction ts with
  | nil => intro a j h1 h2; simp at h2; omega
  | cons t rest ih =>
      intro a j h1 h2
      rcases Nat.eq_or_lt_of_le h1 with heq | hlt
      · subst heq; simp [chainTrace]
      · simp only [chainTrace, List.mem_cons]
        right; right
        exact ih (a + 1) j hlt (by simp at h2 ⊢; omega)

theorem started_mem_chainTrace {ε α} (ts : List (QTask ε α)) :
    ∀ (a j : Nat), a ≤ j → j < a + ts.length →
      QEvent.started j ∈ chainTrace a ts := by
  induction ts with
  | nil => intro a j h1 h2; simp at h2; omega
  | cons t rest ih =>
      intro a j h1 h2
      rcases Nat.eq_or_lt_of_le h1 with heq | hlt
      · subst heq; simp [chainTrace]
      · simp only [chainTrace, List.mem_cons]
        right; right
        exact ih (a + 1) j hlt (by simp at h2 ⊢; omega)

theorem started_not_mem_chainTrace {ε α} (ts : List (QTask ε α)) :
    ∀ (a j : Nat), a + ts.length ≤ j →
      QEvent.started j ∉ chainTrace a ts := by
  induction ts with
  | nil => intro a j h; simp [chainTrace]
  | cons t rest ih =>
      intro a j h
      simp only [chainTrace, List.mem_cons]
      rintro (h1 | h1 | h1)
      · cases h1
        simp only [List.length_cons] at h
        omega
      · cases h1
      · refine ih (a + 1) j ?_ h1
        simp only [List.length_cons] at h
        omega

theorem chainTrace_get {ε α} (ts : List (QTask ε α)) :
    ∀ (a k : Nat), k < ts.length →
      (chainTrace a ts).get? (2 * k) = some (QEvent.started (a + k)) := by
  induction ts with
  | nil => intro a k h; simp at h
  | cons t rest ih =>
      intro a k h
      cases k with
      | zero => simp [chainTrace]
      | succ k =>
          have h2 : 2 * (k + 1) = 2 * k + 1 + 1 := by omega
          rw [h2]
          simp only [chainTrace, List.get?_cons_succ]
          have hget := ih (a + 1) k (by simp at h; omega)
          rw [hget]
          have hak : a + 1 + k = a + (k + 1) := by omega
          rw [hak]

theorem chainHandles_get {ε α} (ts : List (QTask ε α)) :
    ∀ (a k : Nat) (t : QTask ε α), ts.get? k = some t →
      (chainHandles a ts).get? k = some (a + k, t.result) := by
  induction ts with
  | nil => intro a k t h; simp at h
  | cons t0 rest ih =>
      intro a k t h
      cases k with
      | zero =>
          simp only [List.get?_cons_zero, Option.some.injEq] at h
          subst h
          simp [chainHandles]
      | succ k =>
          simp only [List.get?_cons_succ] at h
          simp only [chainHandles, List.get?_cons_succ]
          have hget := ih (a + 1) k t h
          rw [hget]
          have hak : a + 1 + k = a + (k + 1) := by omega
          rw [hak]

/-- C2.  For every two tasks enqueued on the same `JobQueueService`
instance with task `i` enqueued before task `j`, the invocation of task
`j`'s function (`started j`, which occurs at position `2*j` of the
execution trace and at no earlier position) happens only after task `i`'s
promise has settled (`settled i` already occurs in the prefix before it):
tasks never overlap and run strictly in enqueue order, even though all
tasks were enqueued synchronously without awaiting. -/
theorem C2_queue_sequential {ε α} (ts : List (QTask ε α)) (i j : Nat)
    (hij : i < j) (hj : j < ts.length) :
    QEvent.settled i ∈ (execQueue (queueOf ts)).trace.take (2 * j) ∧
    QEvent.started j ∉ (execQueue (queueOf ts)).trace.take (2 * j) ∧
    (execQueue (queueOf ts)).trace.get? (2 * j) =
      some (QEvent.started j) := by
  rw [execQueue_eq]
  refine ⟨?_, ?_, ?_⟩
  · rw [chainTrace_take]
    refine settled_mem_chainTrace (ts.take j) 0 i (Nat.zero_le i) ?_
    simp only [Nat.zero_add, List.length_take]
    omega
  · rw [chainTrace_take]
    refine started_not_mem_chainTrace (ts.take j) 0 j ?_
    simp only [Nat.zero_add, List.length_take]
    omega
  · have := chainTrace_get ts 0 j hj
    simpa using this

/-- Concrete tasks for the C2 witness: the middle task rejects. -/
def wTasksA : List (QTask String Nat) :=
  [⟨1, Except.ok 4⟩, ⟨0, Except.error "boom"⟩, ⟨2, Except.ok 7⟩]

/-- C2 witness: concrete three-task queue (the second task rejects),
showing task 2 starts at trace position 4, strictly after task 0
settled. -/
theorem C2_queue_sequential_witness :
    QEvent.settled 0 ∈ (execQueue (queueOf wTasksA)).trace.take (2 * 2) ∧
    QEvent.started 2 ∉ (execQueue (queueOf wTasksA)).trace.take (2 * 2) ∧
    (execQueue (queueOf wTasksA)).trace.get? (2 * 2) =
      some (QEvent.started 2) :=
  C2_queue_sequential wTasksA 0 2 (by decide) (by decide)

/-- C3.  Every handle returned by `enqueue` settles with its own task's
outcome (value or error), at settlement position `i` for task `i`, and
every enqueued task is eventually invoked — quantified over arbitrary
task outcomes, so a rejecting task neither blocks subsequent tasks nor
leaks its error into their handles: the queue is never poisoned. -/
theorem C3_queue_own_outcome {ε α} (ts : List (QTask ε α)) (i : Nat)
    (hi : i < ts.length) :
    (execQueue (queueOf ts)).handles.get? i =
      some (i, (ts.get ⟨i, hi⟩).result) ∧
    QEvent.started i ∈ (execQueue (queueOf ts)).trace := by
  rw [execQueue_eq]
  refine ⟨?_, ?_⟩
  · have hget : ts.get? i = some (ts.get ⟨i, hi⟩) := List.get?_eq_get hi
    have := chainHandles_get ts 0 i (ts.get ⟨i, hi⟩) hget
    simpa using this
  · exact started_mem_chainTrace ts 0 i (Nat.zero_le i) (by omega)

/-- Concrete tasks for the C3 witness: the first task rejects. -/
def wTasksB : List (QTask String Nat) :=
  [⟨0, Except.error "boom"⟩, ⟨1, Except.ok 7⟩]

/-- C3 witness: after a rejecting first task, the second task still runs
and its handle resolves with its own value, not the predecessor's
error. -/
theorem C3_queue_own_outcome_witness :
    (execQueue (queueOf wTasksB)).handles.get? 1 =
      some (1, (wTasksB.get ⟨1, by decide⟩).result) ∧
    QEvent.started 1 ∈ (execQueue (queueOf wTasksB)).trace :=
  C3_queue_own_outcome wTasksB 1 (by decide)

/-! ### X402 facilitator verification and settlement
(source: `X402FacilitatorService.verify` / `X402FacilitatorService.settle`)

The authorization amount strings (`authorization.value`,
`maxAmountRequired`) are compared through `BigInt(...)` in the source;
they are embedded by their numeric value as naturals.  The
`validAfter`/`validBefore` strings go through `parseInt` and are
embedded as integers, as is `now = Math.floor(Date.now() / 1000)`.
External calls (`verifyTypedData`, `readContract` for `balanceOf` and
`authorizationState`, `parseSignature`, `writeContract`,
`waitForTransactionReceipt`) are oracle parameters that either return a
value or raise an error message; the `try/catch` of the source is
translated by propagating an oracle error to the catch result.  Each
function also returns the list of external operations it performed, in
order, as instrumentation for the claims about which calls happen. -/

/-- Protocol version from `X402_CONFIG.x402Version`. -/
def X402Version : ℕ := 1

/-- Payment scheme from `X402_CONFIG.scheme`. -/
def X402Scheme : String := "exact"

/-- Network identifier from `X402_CONFIG.network`. -/
def X402Network : String := "avalanche-fuji"

/-- EIP-3009 authorization fields of a payment payload. -/
structure X402Auth where
  fromAddr : String
  toAddr : String
  value : ℕ
  validAfter : ℤ
  validBefore : ℤ
  nonce : String
deriving DecidableEq, Repr

/-- Exact-scheme EVM payload: authorization plus EIP-712 signature. -/
structure ExactEvmPayload where
  authorization : X402Auth
  signature : String
deriving DecidableEq, Repr

/-- Payment payload sent in the X-PAYMENT header. -/
structure PaymentPayload where
  x402Version : ℕ
  scheme : String
  network : String
  payload : ExactEvmPayload
deriving DecidableEq, Repr

/-- Payment requirements offered to the client (fields used by
verification). -/
structure PaymentRequirements where
  scheme : String
  network : String
  maxAmountRequired : ℕ
  payTo : String
deriving DecidableEq, Repr

/-- Verification outcome (`VerifyResponse` in the source). -/
structure VerifyResponse where
  isValid : Bool
  invalidReason : Option String
  payer : Option String
deriving DecidableEq, Repr

/-- Settlement outcome (`SettleResponse` in the source). -/
structure SettleResponse where
  success : Bool
  errorReason : Option String
  transaction : String
  network : String
  payer : Option String
deriving DecidableEq, Repr

/-- Results of the external blockchain/crypto collaborator calls:
`Except.error m` models the call throwing with message `m`. -/
structure ChainEnv where
  verifyTypedData : Except String Bool
  balanceOf : Except String ℕ
  authorizationState : Except String Bool
  parseSignature : Except String Unit
  writeContract : Except String String
  receiptReverted : Except String Bool
deriving Repr

/-- External operations performed, recorded in execution order. -/
inductive ChainOp where
  | sigCheck
  | readBalance
  | readAuthState
  | submitTransfer
  | waitReceipt
deriving DecidableEq, Repr

/-- Lower-casing of an address string, modelling JavaScript
`.toLowerCase()` on the ASCII hex addresses compared by the source
(character-list implementation so that it evaluates by kernel
reduction). -/
def lowerStr (s : String) : String :=
  String.mk (s.data.map Char.toLower)

/-- Catch-all response of `verify`: a raised error message is caught and
returned as a reason prefixed with "verification_error: ". -/
def vCatch (auth : X402Auth) (m : String) : VerifyResponse :=
  ⟨false, some ("verification_error: " ++ m), some auth.fromAddr⟩

/-- Source method `X402FacilitatorService.verify`, with its external
calls supplied by `env` and the current time by `now`.  The checks run
in source order: configured, protocol version, scheme, network,
recipient, amount, timing, signature, balance, nonce. -/
def verify (cfg : Bool) (env : ChainEnv) (now : ℤ) (pp : PaymentPayload)
    (req : PaymentRequirements) : VerifyResponse × List ChainOp :=
  match cfg with
  | false => (⟨false, some "Facilitator not configured", none⟩, [])
  | true =>
    let auth := pp.payload.authorization
    if pp.x402Version ≠ X402Version then
      (⟨false, some "invalid_version", some auth.fromAddr⟩, [])
    else if pp.scheme ≠ X402Scheme ∨ req.scheme ≠ X402Scheme then
      (⟨false, some "unsupported_scheme", some auth.fromAddr⟩, [])
    else if pp.network ≠ X402Network ∨ req.network ≠ X402Network then
      (⟨false, some "invalid_network", some auth.fromAddr⟩, [])
    else if lowerStr auth.toAddr ≠ lowerStr req.payTo then
      (⟨false, some "recipient_mismatch", some auth.fromAddr⟩, [])
    else if auth.value < req.maxAmountRequired then
      (⟨false, some "insufficient_amount", some auth.fromAddr⟩, [])
    else if now < auth.validAfter then
      (⟨false, some "authorization_not_yet_valid", some auth.fromAddr⟩, [])
    else if auth.validBefore ≤ now then
      (⟨false, some "authorization_expired", some auth.fromAddr⟩, [])
    else
      match env.verifyTypedData with
      | Except.error m => (vCatch auth m, [ChainOp.sigCheck])
      | Except.ok false =>
          (⟨false, some "invalid_signature", some auth.fromAddr⟩,
            [ChainOp.sigCheck])
      | Except.ok true =>
        match env.balanceOf with
        | Except.error m =>
            (vCatch auth m, [ChainOp.sigCheck, ChainOp.readBalance])
        | Except.ok bal =>
          if bal < auth.value then
            (⟨false, some "insufficient_balance", some auth.fromAddr⟩,
              [ChainOp.sigCheck, ChainOp.readBalance])
          else
            match env.authorizationState with
            | Except.error m =>
                (vCatch auth m,
                  [ChainOp.sigCheck, ChainOp.readBalance,
                    ChainOp.readAuthState])
            | Except.ok true =>
                (⟨false, some "nonce_already_used", some auth.fromAddr⟩,
                  [ChainOp.sigCheck, ChainOp.readBalance,
                    ChainOp.readAuthState])
            | Except.ok false =>
                (⟨true, none, some auth.fromAddr⟩,
                  [ChainOp.sigCheck, ChainOp.readBalance,
                    ChainOp.readAuthState])

/-- Catch-all response of `settle`: a raised error message is caught and
returned as a reason prefixed with "settlement_error: ", with an empty
transaction reference. -/
def sCatch (auth : X402Auth) (m : String) : SettleResponse :=
  ⟨false, some ("settlement_error: " ++ m), "", X402Network, some auth.fromAddr⟩

/-- JavaScript truthiness of `verifyResult.invalidReason ||
'verification_failed'`: an absent or empty reason falls back to
"verification_failed". -/
def reasonOrFailed (r : Option String) : String :=
  match r with
  | none => "verification_failed"
  | some r => if r = "" then "verification_failed" else r

/-- Source method `X402FacilitatorService.settle`: re-verifies the
payload, then parses the signature, executes
`transferWithAuthorization`, waits for the receipt, and reports a
revert as `transaction_reverted`. -/
def settle (cfg : Bool) (env : ChainEnv) (now : ℤ) (pp : PaymentPayload)
    (req : PaymentRequirements) : SettleResponse × List ChainOp :=
  match cfg with
  | false =>
      (⟨false, some "Facilitator not configured", "", X402Network, none⟩, [])
  | true =>
    let auth := pp.payload.authorization
    let v := verify true env now pp req
    if v.1.isValid then
      match env.parseSignature with
      | Except.error m => (sCatch auth m, v.2)
      | Except.ok _ =>
        match env.writeContract with
        | Except.error m =>
            (sCatch auth m, v.2 ++ [ChainOp.submitTransfer])
        | Except.ok tx =>
          match env.receiptReverted with
          | Except.error m =>
              (sCatch auth m,
                v.2 ++ [ChainOp.submitTransfer, ChainOp.waitReceipt])
          | Except.ok true =>
              (⟨false, some "transaction_reverted", tx, X402Network,
                  some auth.fromAddr⟩,
                v.2 ++ [ChainOp.submitTransfer, ChainOp.waitReceipt])
          | Except.ok false =>
              (⟨true, none, tx, X402Network, some auth.fromAddr⟩,
                v.2 ++ [ChainOp.submitTransfer, ChainOp.waitReceipt])
    else
      (⟨false, some (reasonOrFailed v.1.invalidReason), "", X402Network,
          some auth.fromAddr⟩, v.2)

/-! ### Concrete fixtures for the facilitator claims -/

/-- Concrete payment requirements: 1 USDC (1000000 atomic units). -/
def reqFix : PaymentRequirements :=
  ⟨"exact", "avalanche-fuji", 1000000, "0xRecipient"⟩

/-- Oracle environment in which every external call succeeds: valid
signature, ample balance, fresh nonce, transaction included without
revert. -/
def envFix : ChainEnv :=
  ⟨Except.ok true, Except.ok 100000000, Except.ok false, Except.ok (),
    Except.ok "0xTxHash", Except.ok false⟩

/-- Oracle environment whose transaction receipt reports a revert. -/
def envRevert : ChainEnv :=
  ⟨Except.ok true, Except.ok 100000000, Except.ok false, Except.ok (),
    Except.ok "0xTxHash", Except.ok true⟩

/-- Oracle environment in which every external call throws. -/
def envThrow : ChainEnv :=
  ⟨Except.error "rpc unreachable", Except.error "rpc unreachable",
    Except.error "rpc unreachable", Except.error "bad signature encoding",
    Except.error "rpc unreachable", Except.error "rpc unreachable"⟩

/-- Concrete payload builder: protocol version `ver`, authorization
amount `v`, validity window `[va, vb)`, addressed to the recipient of
`reqFix`. -/
def ppFix (ver v : ℕ) (va vb : ℤ) : PaymentPayload :=
  ⟨ver, "exact", "avalanche-fuji",
    ⟨⟨"0xPayer", "0xRecipient", v, va, vb, "0xNonce"⟩, "0xSig"⟩⟩

/-- C4, counterexample.  A payload whose authorization amount 999999 is
exactly one atomic unit below `maxAmountRequired = 1000000`, but whose
protocol version is 2: verification fails with reason
`invalid_version`, not `insufficient_amount`, because the version,
scheme, network and recipient checks run before the amount check.  This
falsifies the claim as stated for "every such payload". -/
theorem C4_counterexample :
    (ppFix 2 999999 0 10000).payload.authorization.value + 1 =
      reqFix.maxAmountRequired ∧
    (verify true envFix 50 (ppFix 2 999999 0 10000) reqFix).1.invalidReason =
      some "invalid_version" ∧
    (verify true envFix 50 (ppFix 2 999999 0 10000) reqFix).1.invalidReason ≠
      some "insufficient_amount" := by
  refine ⟨by decide, by decide, by decide⟩

/-- C4, amended.  Submitting a payment payload whose authorization
amount is one atomic unit below the job's `maxAmountRequired`, and which
passes the preceding protocol-version, scheme, network and recipient
checks, always yields a verification failure with reason
`insufficient_amount` (and no external call is performed: the amount
check precedes the timing, signature, balance and nonce checks). -/
theorem C4_amended (env : ChainEnv) (now : ℤ) (pp : PaymentPayload)
    (req : PaymentRequirements)
    (hver : pp.x402Version = X402Version)
    (hs1 : pp.scheme = X402Scheme) (hs2 : req.scheme = X402Scheme)
    (hn1 : pp.network = X402Network) (hn2 : req.network = X402Network)
    (hrec : lowerStr pp.payload.authorization.toAddr = lowerStr req.payTo)
    (hval : pp.payload.authorization.value + 1 = req.maxAmountRequired) :
    verify true env now pp req =
      (⟨false, some "insufficient_amount",
          some pp.payload.authorization.fromAddr⟩, []) := by
  have hlt : pp.payload.authorization.value < req.maxAmountRequired := by
    omega
  simp [verify, hver, hs1, hs2, hn1, hn2, hrec, hlt]

/-- C4 witness: the concrete one-unit-below payload that passes the
preceding checks fails with `insufficient_amount`. -/
theorem C4_amended_witness :
    verify true envFix 50 (ppFix 1 999999 0 10000) reqFix =
      (⟨false, some "insufficient_amount",
          some (ppFix 1 999999 0 10000).payload.authorization.fromAddr⟩,
        []) :=
  C4_amended envFix 50 (ppFix 1 999999 0 10000) reqFix rfl rfl rfl rfl rfl
    (by decide) (by decide)

/-- Concrete payload with a degenerate validity window:
`validAfter = 100 > validBefore = 50`. -/
def ppDegenerate : PaymentPayload := ppFix 1 1000000 100 50

/-- C5, counterexample.  For a payload passing the version, scheme,
network, recipient and amount checks whose authorization has
`validAfter = 100 > validBefore = 50`, at `now = 60` the current time
satisfies `now ≥ validBefore`, yet verification fails with reason
`authorization_not_yet_valid`, not `authorization_expired`: the claim's
clause "fails with reason authorization_expired when now >= validBefore"
does not hold when the two timing conditions overlap, because the
not-yet-valid check runs first. -/
theorem C5_counterexample :
    ppDegenerate.payload.authorization.validBefore ≤ 60 ∧
    (verify true envFix 60 ppDegenerate reqFix).1.invalidReason =
      some "authorization_not_yet_valid" ∧
    (verify true envFix 60 ppDegenerate reqFix).1.invalidReason ≠
      some "authorization_expired" := by
  refine ⟨by decide, by decide, by decide⟩

/-- C5, amended.  For every payment payload that passes the version,
scheme, network, recipient and amount checks, verification fails with
reason `authorization_not_yet_valid` when `now < validAfter`; fails with
reason `authorization_expired` when `validAfter ≤ now` and
`now ≥ validBefore`; and proceeds past the timing check to signature
verification exactly when `validAfter ≤ now < validBefore` — i.e. it
rejects on timing exactly when the current time lies outside the
half-open interval `[validAfter, validBefore)`, with the not-yet-valid
reason taking precedence when the two conditions overlap. -/
theorem C5_amended (env : ChainEnv) (now : ℤ) (pp : PaymentPayload)
    (req : PaymentRequirements)
    (hver : pp.x402Version = X402Version)
    (hs1 : pp.scheme = X402Scheme) (hs2 : req.scheme = X402Scheme)
    (hn1 : pp.network = X402Network) (hn2 : req.network = X402Network)
    (hrec : lowerStr pp.payload.authorization.toAddr = lowerStr req.payTo)
    (hamt : req.maxAmountRequired ≤ pp.payload.authorization.value) :
    (now < pp.payload.authorization.validAfter →
      verify true env now pp req =
        (⟨false, some "authorization_not_yet_valid",
            some pp.payload.authorization.fromAddr⟩, [])) ∧
    (pp.payload.authorization.validAfter ≤ now →
      pp.payload.authorization.validBefore ≤ now →
      verify true env now pp req =
        (⟨false, some "authorization_expired",
            some pp.payload.authorization.fromAddr⟩, [])) ∧
    (pp.payload.authorization.validAfter ≤ now →
      now < pp.payload.authorization.validBefore →
      ChainOp.sigCheck ∈ (verify true env now pp req).2) := by
  have hnotlt : ¬ pp.payload.authorization.value < req.maxAmountRequired := by
    omega
  refine ⟨?_, ?_, ?_⟩
  · intro ht
    simp [verify, hver, hs1, hs2, hn1, hn2, hrec, hnotlt, ht]
  · intro ht1 ht2
    simp [verify, hver, hs1, hs2, hn1, hn2, hrec, hnotlt, not_lt.mpr ht1, ht2]
  · intro ht1 ht2
    simp only [verify, hver, hs1, hs2, hn1, hn2, hrec, hnotlt,
      not_lt.mpr ht1, not_le.mpr ht2]
    simp only [ne_eq, not_true_eq_false, false_or, if_false, ite_false,
      not_false_eq_true, or_self, if_neg, not_lt]
    rcases hv : env.verifyTypedData with m | b
    · simp [verify, hver, hs1, hs2, hn1, hn2, hrec, hnotlt,
        not_lt.mpr ht1, not_le.mpr ht2, hv]
    · cases b
      · simp [verify, hver, hs1, hs2, hn1, hn2, hrec, hnotlt,
          not_lt.mpr ht1, not_le.mpr ht2, hv]
      · rcases hb : env.balanceOf with m | bal
        · simp [verify, hver, hs1, hs2, hn1, hn2, hrec, hnotlt,
            not_lt.mpr ht1, not_le.mpr ht2, hv, hb]
        · rcases hn : env.authorizationState with m | u
          · by_cases hbal : bal < pp.payload.authorization.value <;>
              simp [verify, hver, hs1, hs2, hn1, hn2, hrec, hnotlt,
                not_lt.mpr ht1, not_le.mpr ht2, hv, hb, hn, hbal]
          · by_cases hbal : bal < pp.payload.authorization.value <;>
              cases u <;>
              simp [verify, hver, hs1, hs2, hn1, hn2, hrec, hnotlt,
                not_lt.mpr ht1, not_le.mpr ht2, hv, hb, hn, hbal]

/-- Concrete payload with validity window `[10, 10000)`. -/
def ppTimed : PaymentPayload := ppFix 1 1000000 10 10000

/-- C5 witness: concrete otherwise-valid payload with window
`[10, 10000)` — rejected as not-yet-valid at `now = 5`, rejected as
expired at `now = 20000`, and reaching signature verification at
`now = 50`. -/
theorem C5_amended_witness :
    verify true envFix 5 ppTimed reqFix =
      (⟨false, some "authorization_not_yet_valid",
          some ppTimed.payload.authorization.fromAddr⟩, []) ∧
    verify true envFix 20000 ppTimed reqFix =
      (⟨false, some "authorization_expired",
          some ppTimed.payload.authorization.fromAddr⟩, []) ∧
    ChainOp.sigCheck ∈ (verify true envFix 50 ppTimed reqFix).2 :=
  ⟨(C5_amended envFix 5 ppTimed reqFix rfl rfl rfl rfl rfl (by decide)
      (by decide)).1 (by decide),
   (C5_amended envFix 20000 ppTimed reqFix rfl rfl rfl rfl rfl (by decide)
      (by decide)).2.1 (by decide) (by decide),
   (C5_amended envFix 50 ppTimed reqFix rfl rfl rfl rfl rfl (by decide)
      (by decide)).2.2 (by decide) (by decide)⟩

/-- Helper: verification never performs the on-chain transfer — its
operation list never contains `submitTransfer`. -/
theorem verify_submit_not_mem (cfg : Bool) (env : ChainEnv) (now : ℤ)
    (pp : PaymentPayload) (req : PaymentRequirements) :
    ChainOp.submitTransfer ∉ (verify cfg env now pp req).2 := by
  cases cfg with
  | false => simp [verify]
  | true =>
      simp only [verify]
      split_ifs <;> try simp
      rcases env.verifyTypedData with m | b
      · simp
      · cases b
        · simp
        · rcases env.balanceOf with m | bal
          · simp
          · by_cases hbal : bal < pp.payload.authorization.value
            · simp [hbal]
            · rcases env.authorizationState with m | u
              · simp [hbal]
              · cases u <;> simp [hbal]

/-- C6.  Settlement re-verifies the payload before any transfer: (1) for
every payload and requirements for which verification returns invalid
with a (nonempty) reason `r`, `settle` returns `success = false`
carrying that same reason `r` and an empty transaction reference, and
the on-chain transfer is never submitted; (2) when verification passes
and the submitted transaction's receipt reports a revert, `settle`
returns `success = false` with reason `transaction_reverted`. -/
theorem C6_settle_reverifies (cfg : Bool) (env : ChainEnv) (now : ℤ)
    (pp : PaymentPayload) (req : PaymentRequirements) (r : String) :
    ((verify cfg env now pp req).1.isValid = false →
      (verify cfg env now pp req).1.invalidReason = some r → r ≠ "" →
      (settle cfg env now pp req).1.success = false ∧
      (settle cfg env now pp req).1.errorReason = some r ∧
      (settle cfg env now pp req).1.transaction = "" ∧
      ChainOp.submitTransfer ∉ (settle cfg env now pp req).2) ∧
    (∀ tx : String, cfg = true →
      (verify true env now pp req).1.isValid = true →
      env.parseSignature = Except.ok () →
      env.writeContract = Except.ok tx →
      env.receiptReverted = Except.ok true →
      (settle cfg env now pp req).1 =
        ⟨false, some "transaction_reverted", tx, X402Network,
          some pp.payload.authorization.fromAddr⟩) := by
  constructor
  · intro hinv hreason hne
    cases cfg with
    | false =>
        simp only [verify] at hreason
        simp only [Option.some.injEq] at hreason
        subst hreason
        refine ⟨rfl, rfl, rfl, ?_⟩
        simp [settle]
    | true =>
        have hnotvalid : ¬ (verify true env now pp req).1.isValid = true := by
          simp [hinv]
        have hset : settle true env now pp req =
            (⟨false,
                some (reasonOrFailed (verify true env now pp req).1.invalidReason),
                "", X402Network, some pp.payload.authorization.fromAddr⟩,
              (verify true env now pp req).2) := by
          simp only [settle, if_neg hnotvalid]
        refine ⟨by rw [hset], ?_, by rw [hset], ?_⟩
        · rw [hset]
          simp [hreason, reasonOrFailed, hne]
        · rw [hset]
          exact verify_submit_not_mem true env now pp req
  · intro tx hcfg hvalid hps hw hr
    subst hcfg
    simp [settle, hvalid, hps, hw, hr]

/-- Concrete payload passing every verification check against
`reqFix`. -/
def ppGood : PaymentPayload := ppFix 1 1000000 0 10000

/-- Concrete payload with a wrong protocol version (2 instead of 1). -/
def ppBadVersion : PaymentPayload := ppFix 2 1000000 0 10000

/-- C6 witness: (1) for the wrong-version payload, settle fails carrying
the verification reason `invalid_version`, with an empty transaction and
no transfer submitted; (2) for the valid payload against the reverting
environment, settle fails with `transaction_reverted`. -/
theorem C6_settle_reverifies_witness :
    ((settle true envFix 50 ppBadVersion reqFix).1.success = false ∧
     (settle true envFix 50 ppBadVersion reqFix).1.errorReason =
       some "invalid_version" ∧
     (settle true envFix 50 ppBadVersion reqFix).1.transaction = "" ∧
     ChainOp.submitTransfer ∉ (settle true envFix 50 ppBadVersion reqFix).2) ∧
    (settle true envRevert 50 ppGood reqFix).1 =
      ⟨false, some "transaction_reverted", "0xTxHash", X402Network,
        some ppGood.payload.authorization.fromAddr⟩ :=
  ⟨(C6_settle_reverifies true envFix 50 ppBadVersion reqFix
      "invalid_version").1 (by decide) (by decide) (by decide),
   (C6_settle_reverifies true envRevert 50 ppGood reqFix "unused").2
      "0xTxHash" rfl (by decide) rfl rfl rfl⟩

/-- Fixed failure reasons that `verify` can return. -/
def verifyReasons : List String :=
  ["Facilitator not configured", "invalid_version", "unsupported_scheme",
    "invalid_network", "recipient_mismatch", "insufficient_amount",
    "authorization_not_yet_valid", "authorization_expired",
    "invalid_signature", "insufficient_balance", "nonce_already_used"]

/-- Structured verification failure: one of the fixed reasons, or a
caught internal exception reported with the "verification_error: "
prefix. -/
def structuredVerifyReason (r : String) : Prop :=
  r ∈ verifyReasons ∨ ∃ m, r = "verification_error: " ++ m

/-- Structured settlement failure: a carried verification reason, the
`verification_failed` fallback, an on-chain revert, or a caught internal
exception reported with the "settlement_error: " prefix. -/
def structuredSettleReason (r : String) : Prop :=
  structuredVerifyReason r ∨ r = "verification_failed" ∨
    r = "transaction_reverted" ∨ ∃ m, r = "settlement_error: " ++ m

/-- Helper: whenever `verify` reports invalid, it carries a structured
reason. -/
theorem verify_invalid_structured (cfg : Bool) (env : ChainEnv) (now : ℤ)
    (pp : PaymentPayload) (req : PaymentRequirements) :
    (verify cfg env now pp req).1.isValid = false →
    ∃ r, (verify cfg env now pp req).1.invalidReason = some r ∧
      structuredVerifyReason r := by
  cases cfg with
  | false =>
      intro _
      exact ⟨"Facilitator not configured", rfl, Or.inl (by decide)⟩
  | true =>
      intro h
      simp only [verify] at h ⊢
      by_cases h1 : pp.x402Version ≠ X402Version
      · simp only [if_pos h1] at h ⊢
        exact ⟨"invalid_version", rfl, Or.inl (by decide)⟩
      · simp only [if_neg h1] at h ⊢
        by_cases h2 : pp.scheme ≠ X402Scheme ∨ req.scheme ≠ X402Scheme
        · simp only [if_pos h2] at h ⊢
          exact ⟨"unsupported_scheme", rfl, Or.inl (by decide)⟩
        · simp only [if_neg h2] at h ⊢
          by_cases h3 : pp.network ≠ X402Network ∨ req.network ≠ X402Network
          · simp only [if_pos h3] at h ⊢
            exact ⟨"invalid_network", rfl, Or.inl (by decide)⟩
          · simp only [if_neg h3] at h ⊢
            by_cases h4 :
                lowerStr pp.payload.authorization.toAddr ≠ lowerStr req.payTo
            · simp only [if_pos h4] at h ⊢
              exact ⟨"recipient_mismatch", rfl, Or.inl (by decide)⟩
            · simp only [if_neg h4] at h ⊢
              by_cases h5 :
                  pp.payload.authorization.value < req.maxAmountRequired
              · simp only [if_pos h5] at h ⊢
                exact ⟨"insufficient_amount", rfl, Or.inl (by decide)⟩
              · simp only [if_neg h5] at h ⊢
                by_cases h6 : now < pp.payload.authorization.validAfter
                · simp only [if_pos h6] at h ⊢
                  exact ⟨"authorization_not_yet_valid", rfl,
                    Or.inl (by decide)⟩
                · simp only [if_neg h6] at h ⊢
                  by_cases h7 : pp.payload.authorization.validBefore ≤ now
                  · simp only [if_pos h7] at h ⊢
                    exact ⟨"authorization_expired", rfl, Or.inl (by decide)⟩
                  · simp only [if_neg h7] at h ⊢
                    rcases hv : env.verifyTypedData with m | b
                    · simp only [hv] at h ⊢
                      exact ⟨"verification_error: " ++ m, rfl,
                        Or.inr ⟨m, rfl⟩⟩
                    · cases b
                      · simp only [hv] at h ⊢
                        exact ⟨"invalid_signature", rfl, Or.inl (by decide)⟩
                      · rcases hb : env.balanceOf with m | bal
                        · simp only [hv, hb] at h ⊢
                          exact ⟨"verification_error: " ++ m, rfl,
                            Or.inr ⟨m, rfl⟩⟩
                        · by_cases hbal :
                              bal < pp.payload.authorization.value
                          · simp only [hv, hb, if_pos hbal] at h ⊢
                            exact ⟨"insufficient_balance", rfl,
                              Or.inl (by decide)⟩
                          · rcases hn : env.authorizationState with m | u
                            · simp only [hv, hb, if_neg hbal, hn] at h ⊢
                              exact ⟨"verification_error: " ++ m, rfl,
                                Or.inr ⟨m, rfl⟩⟩
                            · cases u
                              · simp only [hv, hb, if_neg hbal, hn] at h
                                cases h
                              · simp only [hv, hb, if_neg hbal, hn] at h ⊢
                                exact ⟨"nonce_already_used", rfl,
                                  Or.inl (by decide)⟩

/-- Helper: whenever `settle` reports failure, it carries a structured
reason. -/
theorem settle_fail_structured (cfg : Bool) (env : ChainEnv) (now : ℤ)
    (pp : PaymentPayload) (req : PaymentRequirements) :
    (settle cfg env now pp req).1.success = false →
    ∃ r, (settle cfg env now pp req).1.errorReason = some r ∧
      structuredSettleReason r := by
  cases cfg with
  | false =>
      intro _
      exact ⟨"Facilitator not configured", rfl, Or.inl (Or.inl (by decide))⟩
  | true =>
      by_cases hv : (verify true env now pp req).1.isValid = true
      · simp only [settle, if_pos hv]
        rcases hp : env.parseSignature with m | u
        · intro _
          exact ⟨"settlement_error: " ++ m, rfl,
            Or.inr (Or.inr (Or.inr ⟨m, rfl⟩))⟩
        · rcases hw : env.writeContract with m | tx
          · intro _
            exact ⟨"settlement_error: " ++ m, rfl,
              Or.inr (Or.inr (Or.inr ⟨m, rfl⟩))⟩
          · rcases hr : env.receiptReverted with m | b
            · intro _
              exact ⟨"settlement_error: " ++ m, rfl,
                Or.inr (Or.inr (Or.inr ⟨m, rfl⟩))⟩
            · cases b
              · intro h
                cases h
              · intro _
                exact ⟨"transaction_reverted", rfl,
                  Or.inr (Or.inr (Or.inl rfl))⟩
      · have hset : settle true env now pp req =
            (⟨false,
                some (reasonOrFailed (verify true env now pp req).1.invalidReason),
                "", X402Network, some pp.payload.authorization.fromAddr⟩,
              (verify true env now pp req).2) := by
          simp only [settle, if_neg hv]
        intro _
        rw [hset]
        refine ⟨reasonOrFailed (verify true env now pp req).1.invalidReason,
          rfl, ?_⟩
        have hinv : (verify true env now pp req).1.isValid = false := by
          cases hval : (verify true env now pp req).1.isValid
          · rfl
          · exact absurd hval hv
        obtain ⟨r, hr, hstr⟩ :=
          verify_invalid_structured true env now pp req hinv
        rw [hr]
        by_cases hemp : r = ""
        · simp [reasonOrFailed, hemp]
          exact Or.inr (Or.inl rfl)
        · simp [reasonOrFailed, hemp]
          exact Or.inl hstr

/-- C10.  The facilitator operations are total at their interface:
(1) when the facilitator is not configured, both `verify` and `settle`
return a structured failure ("Facilitator not configured") having
performed no external operation at all; (2) whenever `verify` reports
invalid it carries a structured reason — one of its fixed reason codes
or a caught internal exception prefixed "verification_error: "; and
(3) whenever `settle` reports failure it carries a structured reason —
a carried verification reason, the `verification_failed` fallback,
`transaction_reverted`, or a caught internal exception prefixed
"settlement_error: ".  In the model every thrown external error is an
oracle `Except.error`, and both functions map it to such a structured
response instead of propagating it. -/
theorem C10_facilitator_total (cfg : Bool) (env : ChainEnv) (now : ℤ)
    (pp : PaymentPayload) (req : PaymentRequirements) :
    (cfg = false →
      verify cfg env now pp req =
        (⟨false, some "Facilitator not configured", none⟩, []) ∧
      settle cfg env now pp req =
        (⟨false, some "Facilitator not configured", "", X402Network, none⟩,
          [])) ∧
    ((verify cfg env now pp req).1.isValid = false →
      ∃ r, (verify cfg env now pp req).1.invalidReason = some r ∧
        structuredVerifyReason r) ∧
    ((settle cfg env now pp req).1.success = false →
      ∃ r, (settle cfg env now pp req).1.errorReason = some r ∧
        structuredSettleReason r) := by
  refine ⟨?_, verify_invalid_structured cfg env now pp req,
    settle_fail_structured cfg env now pp req⟩
  intro h
  subst h
  exact ⟨rfl, rfl⟩

/-- C10 witness: the not-configured case at one concrete input, and the
all-throwing oracle environment at another — the raised errors surface
as "verification_error: " / carried structured reasons, never as an
escaping exception. -/
theorem C10_facilitator_total_witness :
    (verify false envFix 0 ppGood reqFix =
        (⟨false, some "Facilitator not configured", none⟩, []) ∧
      settle false envFix 0 ppGood reqFix =
        (⟨false, some "Facilitator not configured", "", X402Network, none⟩,
          [])) ∧
    (∃ r, (verify true envThrow 50 ppGood reqFix).1.invalidReason = some r ∧
      structuredVerifyReason r) ∧
    (∃ r, (settle true envThrow 50 ppGood reqFix).1.errorReason = some r ∧
      structuredSettleReason r) :=
  ⟨(C10_facilitator_total false envFix 0 ppGood reqFix).1 rfl,
   (C10_facilitator_total true envThrow 50 ppGood reqFix).2.1 (by decide),
   (C10_facilitator_total true envThrow 50 ppGood reqFix).2.2 (by decide)⟩

/-! ### Fiat automation orchestration
(source: fiat-automation.service.ts, fiat.service.ts, fiat.controller.ts)

`FiatAutomationService.processGenerateQr` runs the browser collaborator
and reports through the webhook service; failures go through
`handleAutomationError`, which sends the 2FA-interrupt webhook for a
`TwoFactorRequiredError` (and nothing else), or writes the
`Fiat automation failed: ...` error log for any other error; the caught
error is then re-thrown to the caller.  `FiatService.queueGenerateQr`
enqueues the job and attaches a `.catch` that writes the
`QR generation job failed: ...` error log, swallowing the rejection.
The browser outcome is a parameter (`Except.error` = the collaborator
threw). -/

/-- Errors raised by the browser collaborator: the dedicated
`TwoFactorRequiredError` interrupt, or a generic error with a message. -/
inductive FiatErr where
  | twoFactorRequired
  | generic (msg : String)
deriving DecidableEq, Repr

/-- Webhook events of the fiat rail. -/
inductive FiatWebhook where
  | qrGenerated (orderId qrBase64 : String)
  | verificationResult (orderId : String) (success : Bool)
  | twoFaRequired
deriving DecidableEq, Repr

/-- Error-level log entries of the fiat flow, tagged by the logging
site: `automationFailed` is the `Fiat automation failed: ...` entry of
`FiatAutomationService.handleAutomationError`; `jobFailed` is the
`QR generation job failed: ...` entry of the `.catch` in
`FiatService.queueGenerateQr`. -/
inductive FiatLog where
  | automationFailed (msg : String)
  | jobFailed (msg : String)
deriving DecidableEq, Repr

/-- Message of a fiat error (`error.message`).  Modelled from the spec:
the `TwoFactorRequiredError` class file is not under src; its message
text is a fixed string whose exact content is irrelevant to the
claims. -/
def FiatErr.message : FiatErr → String
  | FiatErr.twoFactorRequired => "Two-factor code required"
  | FiatErr.generic m => m

/-- Source method `FiatAutomationService.handleAutomationError`: a
`TwoFactorRequiredError` sends the 2FA webhook and returns (no log);
any other error writes the automation-error log (no webhook). -/
def handleAutomationError (e : FiatErr) : List FiatWebhook × List FiatLog :=
  match e with
  | FiatErr.twoFactorRequired => ([FiatWebhook.twoFaRequired], [])
  | FiatErr.generic m =>
      ([], [FiatLog.automationFailed ("Fiat automation failed: " ++ m)])

/-- Source method `FiatAutomationService.processGenerateQr`: on success
sends the `QR_GENERATED` webhook; on failure runs
`handleAutomationError` and re-throws the same error. -/
def processGenerateQr (orderId : String)
    (browserResult : Except FiatErr String) :
    Except FiatErr Unit × List FiatWebhook × List FiatLog :=
  match browserResult with
  | Except.ok qr => (Except.ok (), [FiatWebhook.qrGenerated orderId qr], [])
  | Except.error e =>
      let handled := handleAutomationError e
      (Except.error e, handled.1, handled.2)

/-- Source method `FiatService.queueGenerateQr` (fiat.service.ts without
the duplicate guard): enqueues the job and catches its rejection,
logging `QR generation job failed: ...` and swallowing the error, so
nothing propagates further. -/
def queueGenerateQrLogs (orderId : String)
    (browserResult : Except FiatErr String) :
    List FiatWebhook × List FiatLog :=
  match processGenerateQr orderId browserResult with
  | (Except.ok _, whs, lgs) => (whs, lgs)
  | (Except.error e, whs, lgs) =>
      (whs, lgs ++ [FiatLog.jobFailed
        ("QR generation job failed: " ++ e.message)])

/-- C7.  When the browser collaborator raises the two-factor-required
interrupt, `processGenerateQr` emits exactly the `LOGIN_2FA_REQUIRED`
webhook, writes no log at the automation layer (in particular no
`Fiat automation failed` automation-error entry), and re-raises the
interrupt as itself — still `TwoFactorRequiredError`, not a generic
error; the enclosing queued job then ends cleanly, its rejection
swallowed by the queue-level catch (whose `QR generation job failed`
entry is the only log line produced).  By contrast a generic browser
error does produce the automation-error log entry. -/
theorem C7_twofactor_interrupt (orderId msg : String) :
    processGenerateQr orderId (Except.error FiatErr.twoFactorRequired) =
      (Except.error FiatErr.twoFactorRequired,
        [FiatWebhook.twoFaRequired], []) ∧
    queueGenerateQrLogs orderId (Except.error FiatErr.twoFactorRequired) =
      ([FiatWebhook.twoFaRequired],
        [FiatLog.jobFailed ("QR generation job failed: " ++
          FiatErr.twoFactorRequired.message)]) ∧
    queueGenerateQrLogs orderId (Except.error (FiatErr.generic msg)) =
      ([], [FiatLog.automationFailed ("Fiat automation failed: " ++ msg),
            FiatLog.jobFailed ("QR generation job failed: " ++ msg)]) :=
  ⟨rfl, rfl, rfl⟩

/-! ### Duplicate guard and the generate-qr endpoint
(claim C8; the guard implementation `enqueueQrJob` is not under src) -/

/-- Entry of the duplicate guard: order id, normalized memo, and expiry
timestamp (milliseconds). -/
structure GuardEntry where
  orderId : String
  memo : String
  expiresAt : ℤ
deriving DecidableEq, Repr

/-- Errors surfaced synchronously by QR-job enqueueing: a memo format
validation error (HTTP 400) or a duplicate conflict (HTTP 409,
`ConflictException`). -/
inductive QrError where
  | formatError (msg : String)
  | conflict (msg : String)
deriving DecidableEq, Repr

/-- Whitespace-run collapsing: each maximal run of whitespace becomes a
single hyphen.  The flag records whether the previous character was
whitespace. -/
def collapseWsAux : Bool → List Char → List Char
  | _, [] => []
  | prevWs, c :: rest =>
      if c.isWhitespace then
        if prevWs then collapseWsAux true rest
        else Char.ofNat 45 :: collapseWsAux true rest
      else c :: collapseWsAux false rest

/-- Modelled from the spec (§4.4): memo normalization — uppercase,
collapse whitespace runs to single hyphens, strip all characters
outside `[A-Z0-9_-]`.  The implementation file holding this
normalization is not under src; the docs give the example
`"BM QR #INV-1001" → "BM-QR-INV-1001"`. -/
def normalizeMemo (s : String) : String :=
  String.mk ((collapseWsAux false (s.data.map Char.toUpper)).filter
    (fun c => c.isUpper || c.isDigit || c == '_' || c == '-'))

/-- Modelled from the spec: `JobQueueService.enqueueQrJob` (not under
src; called from `FiatService.queueGenerateQr`).  Per spec §4.4 and §7
("validation and conflict errors surface synchronously to the caller"),
it synchronously validates the normalized memo length (∈ [3,50]),
rejects with a conflict error when an unexpired (< 24h) entry has the
same order id or the same normalized memo, and otherwise records
`(orderId, memo, now + 24h)` and enqueues the background job.
`Except.error` models a synchronous throw — raised before any
background job is enqueued; `Except.ok` returns the updated guard
state with the job enqueued. -/
def enqueueQrJob (now : ℤ) (entries : List GuardEntry)
    (orderId details : String) : Except QrError (List GuardEntry) :=
  let memo := normalizeMemo details
  if memo.length < 3 ∨ 50 < memo.length then
    Except.error (QrError.formatError "invalid glosa format")
  else if entries.any (fun e =>
      decide (now < e.expiresAt) &&
        (e.orderId == orderId || e.memo == memo)) then
    Except.error (QrError.conflict "duplicate order or glosa")
  else
    Except.ok (entries ++ [⟨orderId, normalizeMemo details, now + 86400000⟩])

/-- Source method `FiatService.queueGenerateQr` (fiat.service.ts with
the duplicate guard): calls `enqueueQrJob`; a synchronous throw from it
propagates unchanged to the caller (the attached `.catch` only observes
the asynchronous rejection of an already-enqueued job). -/
def queueGenerateQrGuarded (now : ℤ) (entries : List GuardEntry)
    (orderId details : String) : Except QrError (List GuardEntry) :=
  enqueueQrJob now entries orderId details

/-- Accepted response of the generate-qr endpoint. -/
structure AcceptedResponse where
  status : String
  orderId : String
  details : String
deriving DecidableEq, Repr

/-- Source method `FiatController.generateQr`: calls
`queueGenerateQr` inside a try/catch that re-throws a
`ConflictException` (and any other error) to the HTTP layer; on success
returns the accepted response.  The second component records whether a
background job was enqueued. -/
def generateQrEndpoint (now : ℤ) (entries : List GuardEntry)
    (orderId details : String) :
    Except QrError AcceptedResponse × Bool :=
  match queueGenerateQrGuarded now entries orderId details with
  | Except.error e => (Except.error e, false)
  | Except.ok _ => (Except.ok ⟨"accepted", orderId, details⟩, true)

/-- C8.  When a QR-generation request whose normalized memo is
well-formed conflicts with an unexpired entry (same order id or same
normalized memo), the conflict error surfaces synchronously to the HTTP
caller of generate-qr: the endpoint returns the conflict error, not an
accepted response, and no background job is enqueued. -/
theorem C8_conflict_synchronous (now : ℤ) (entries : List GuardEntry)
    (orderId details : String) (entry : GuardEntry)
    (hlen3 : 3 ≤ (normalizeMemo details).length)
    (hlen50 : (normalizeMemo details).length ≤ 50)
    (hmem : entry ∈ entries) (hfresh : now < entry.expiresAt)
    (hdup : entry.orderId = orderId ∨ entry.memo = normalizeMemo details) :
    generateQrEndpoint now entries orderId details =
      (Except.error (QrError.conflict "duplicate order or glosa"), false) := by
  have hnotlen : ¬ ((normalizeMemo details).length < 3 ∨
      50 < (normalizeMemo details).length) := by omega
  have hany : entries.any (fun e =>
      decide (now < e.expiresAt) &&
        (e.orderId == orderId || e.memo == normalizeMemo details)) = true := by
    rw [List.any_eq_true]
    refine ⟨entry, hmem, ?_⟩
    rcases hdup with h | h <;>
      simp [hfresh, h]
  simp [generateQrEndpoint, queueGenerateQrGuarded, enqueueQrJob,
    hnotlen, hany]

/-- Guard entry fixture: an in-flight QR for order O1 expiring at time
1000. -/
def entryFix : GuardEntry := ⟨"O1", "BM-QR-1", 1000⟩

/-- C8 witness: a second request for order O1 (different memo) at
`now = 500 < 1000` is rejected with the conflict error and enqueues no
job. -/
theorem C8_conflict_synchronous_witness :
    generateQrEndpoint 500 [entryFix] "O1" "ANYTHING" =
      (Except.error (QrError.conflict "duplicate order or glosa"), false) :=
  C8_conflict_synchronous 500 [entryFix] "O1" "ANYTHING" entryFix
    (by decide) (by decide) (by decide) (by decide) (Or.inl rfl)

/-! ### Hybrid payment coordinator
(source: `FiatService.queueHybridPayment`) -/

/-- Requested payment method of a hybrid request. -/
inductive PaymentMethod where
  | FIAT_QR
  | X402_CRYPTO
  | HYBRID
deriving DecidableEq, Repr

/-- Response of the hybrid endpoint (fields used by claim C9). -/
structure HybridResponse where
  status : String
  orderId : String
  availableMethods : List String
  fiatQrStatus : Option String
  x402JobId : Option String
deriving DecidableEq, Repr

/-- Source method `FiatService.queueHybridPayment`: defaults the method
to HYBRID; queues the fiat QR when the method is FIAT_QR or HYBRID
(recording `fiatQrStatus = "queued"` and listing "fiat_qr"); then, when
the method is X402_CRYPTO or HYBRID, attempts crypto-job creation
(outcome supplied by the `crypto` parameter): on success records the
job id and lists "x402_crypto", on failure re-throws only when
X402_CRYPTO was the sole requested method and otherwise swallows the
error.  The boolean result records whether the fiat QR job was
queued. -/
def queueHybridPayment (method : Option PaymentMethod)
    (crypto : Except String String) (orderId : String) :
    Except String HybridResponse × Bool :=
  let m := method.getD PaymentMethod.HYBRID
  let fiat := m = PaymentMethod.FIAT_QR ∨ m = PaymentMethod.HYBRID
  let resp0 : HybridResponse :=
    { status := "accepted", orderId := orderId,
      availableMethods := if fiat then ["fiat_qr"] else [],
      fiatQrStatus := if fiat then some "queued" else none,
      x402JobId := none }
  if m = PaymentMethod.X402_CRYPTO ∨ m = PaymentMethod.HYBRID then
    match crypto with
    | Except.ok jobId =>
        (Except.ok { resp0 with
            x402JobId := some jobId,
            availableMethods := resp0.availableMethods ++ ["x402_crypto"] },
          decide fiat)
    | Except.error e =>
        if m = PaymentMethod.X402_CRYPTO then (Except.error e, decide fiat)
        else (Except.ok resp0, decide fiat)
  else (Except.ok resp0, decide fiat)

/-- C9.  A crypto-job-creation failure propagates to the caller of
`queueHybridPayment` if and only if the requested method is X402_CRYPTO
alone; under HYBRID the failure is swallowed and the call still returns
status "accepted" with the fiat QR queued and exactly ["fiat_qr"] (no
"x402_crypto") in `availableMethods`. -/
theorem C9_hybrid_independent (method : Option PaymentMethod)
    (crypto : Except String String) (orderId : String) :
    (∀ e, crypto = Except.error e →
      ((queueHybridPayment method crypto orderId).1 = Except.error e ↔
        method.getD PaymentMethod.HYBRID = PaymentMethod.X402_CRYPTO)) ∧
    (method.getD PaymentMethod.HYBRID = PaymentMethod.HYBRID →
      ∀ e, crypto = Except.error e →
      queueHybridPayment method crypto orderId =
        (Except.ok ⟨"accepted", orderId, ["fiat_qr"], some "queued", none⟩,
          true)) := by
  constructor
  · intro e he
    subst he
    rcases method with _ | m
    · simp [queueHybridPayment]
    · cases m <;> simp [queueHybridPayment]
  · intro hm e he
    subst he
    rcases method with _ | m
    · simp [queueHybridPayment]
    · cases m <;> simp_all [queueHybridPayment]

/-- C9 witness: under HYBRID a crypto failure is swallowed (accepted,
fiat queued, only "fiat_qr" listed); under X402_CRYPTO alone the same
failure propagates. -/
theorem C9_hybrid_independent_witness :
    queueHybridPayment (some PaymentMethod.HYBRID)
        (Except.error "rpc down") "O1" =
      (Except.ok ⟨"accepted", "O1", ["fiat_qr"], some "queued", none⟩,
        true) ∧
    ((queueHybridPayment (some PaymentMethod.X402_CRYPTO)
        (Except.error "rpc down") "O1").1 = Except.error "rpc down" ↔
      (some PaymentMethod.X402_CRYPTO).getD PaymentMethod.HYBRID =
        PaymentMethod.X402_CRYPTO) :=
  ⟨(C9_hybrid_independent (some PaymentMethod.HYBRID) (Except.error "rpc down")
      "O1").2 rfl "rpc down" rfl,
   (C9_hybrid_independent (some PaymentMethod.X402_CRYPTO)
      (Except.error "rpc down") "O1").1 "rpc down" rfl⟩

end BmsPayment
